import Mathlib

/-!
Verification development for the charonauth authentication server.

The wire codec is embedded from source/proto.js: buffers are lists of
byte values (`List Nat`), Node.js buffer reads are partial functions
returning `Except JsErr`, and each packet marshall/unmarshall pair is
translated field by field.  The credential and session stores are
embedded from source/dbconn.js as explicit state passing.
-/

/-- Byte buffers are lists of natural numbers; every byte written by the
embedded code is below 256 by construction. -/
abbrev Bytes := List Nat

/-- Errors thrown by the embedded JavaScript: `rangeError` models
out-of-bounds buffer access and `Buffer.alloc` with a negative size,
`typeError` models the explicit `TypeError` throws of proto.js, and the
remaining constructors model the error classes thrown by dbconn.js. -/
inductive JsErr where
  | rangeError
  | typeError (msg : String)
  | sessionNotFound (msg : String)
  | errorMsg (msg : String)
  deriving DecidableEq, Repr

/-- Node `buf.readUInt8(off)`: bounds-checked single byte read. -/
def readUInt8 (buf : Bytes) (off : Nat) : Except JsErr Nat :=
  if off + 1 ≤ buf.length then .ok (buf.getD off 0) else .error .rangeError

/-- Node `buf.readUInt16LE(off)`: bounds-checked little-endian 16-bit read. -/
def readUInt16LE (buf : Bytes) (off : Nat) : Except JsErr Nat :=
  if off + 2 ≤ buf.length then
    .ok (buf.getD off 0 + 256 * buf.getD (off + 1) 0)
  else .error .rangeError

/-- Node `buf.readUInt32LE(off)`: bounds-checked little-endian 32-bit read. -/
def readUInt32LE (buf : Bytes) (off : Nat) : Except JsErr Nat :=
  if off + 4 ≤ buf.length then
    .ok (buf.getD off 0 + 256 * buf.getD (off + 1) 0 +
      65536 * buf.getD (off + 2) 0 + 16777216 * buf.getD (off + 3) 0)
  else .error .rangeError

/-- Node `buf.readInt16LE(off)`: the same two bytes as `readUInt16LE`
interpreted as a signed (two's complement) 16-bit integer. -/
def readInt16LE (buf : Bytes) (off : Nat) : Except JsErr Int :=
  (readUInt16LE buf off).map (fun u => if u < 32768 then (u : Int) else (u : Int) - 65536)

/-- Little-endian encoding of a 16-bit value, as written by `writeUInt16LE`. -/
def u16LE (v : Nat) : Bytes := [v % 256, v / 256 % 256]

/-- Little-endian encoding of a 32-bit value, as written by `writeUInt32LE`. -/
def u32LE (v : Nat) : Bytes :=
  [v % 256, v / 256 % 256, v / 65536 % 256, v / 16777216 % 256]

/-- Scan of a buffer for a zero byte, reporting the absolute index of the
first hit; models `buf.indexOf("\x00", offset)` after dropping `offset`
bytes, with `i` the running absolute index. -/
def findZero : Bytes → Nat → Option Nat
  | [], _ => none
  | b :: rest, i => if b = 0 then some i else findZero rest (i + 1)

/-- proto.js `readString(buf, offset)`: locate the NUL terminator from
`offset` on and return the bytes strictly before it; a missing terminator
is a `TypeError`. -/
def readString (buf : Bytes) (off : Nat) : Except JsErr Bytes :=
  match findZero (buf.drop off) off with
  | none => .error (.typeError "Null-terminator not found in buffer")
  | some z => .ok ((buf.drop off).take (z - off))

/-- `Buffer.alloc(len)` followed by `buf.copy(target, 0, start, start + len)`:
Node clamps the source range to the available bytes and leaves the rest of
the freshly allocated target zero-filled. -/
def sliceZeroPad (buf : Bytes) (start len : Nat) : Bytes :=
  let ex := (buf.drop start).take len
  ex ++ List.replicate (len - ex.length) 0

-- Protocol constants from proto.js.
def SERVER_NEGOTIATE : Nat := 0xD003CA01
def AUTH_NEGOTIATE : Nat := 0xD003CA10
def SERVER_EPHEMERAL : Nat := 0xD003CA02
def AUTH_EPHEMERAL : Nat := 0xD003CA20
def SERVER_PROOF : Nat := 0xD003CA03
def AUTH_PROOF : Nat := 0xD003CA30
def ERROR_USER : Nat := 0xD003CAFF
def ERROR_CLIENTSESSION : Nat := 0xD003CAFF
def ERROR_SESSION : Nat := 0xD003CAEE

/-- Payload of SERVER_NEGOTIATE: version byte, client session id and the
username as its ASCII bytes. -/
structure NegotiateData where
  version : Nat
  clientSession : Nat
  username : Bytes
  deriving DecidableEq, Repr

/-- proto.js `serverNegotiate.marshall`: header, version byte, client
session id, NUL-terminated username.  The `writeUInt8`/`writeUInt32LE`
range checks are the source of the error branches. -/
def serverNegotiate.marshall (d : NegotiateData) : Except JsErr Bytes :=
  if d.version ≤ 255 then
    if d.clientSession ≤ 4294967295 then
      .ok (u32LE SERVER_NEGOTIATE ++ [d.version] ++ u32LE d.clientSession ++ d.username ++ [0])
    else .error .rangeError
  else .error .rangeError

/-- proto.js `serverNegotiate.unmarshall`: checks the magic, accepts
versions 1 and 2, then reads the client session id at offset 5 and the
username at offset 9 for both versions. -/
def serverNegotiate.unmarshall (buf : Bytes) : Except JsErr NegotiateData :=
  match readUInt32LE buf 0 with
  | .error e => .error e
  | .ok m =>
    if m ≠ SERVER_NEGOTIATE then .error (.typeError "Buffer is not a SERVER_NEGOTIATE packet")
    else match readUInt8 buf 4 with
      | .error e => .error e
      | .ok version =>
        if version ≠ 1 ∧ version ≠ 2 then
          .error (.typeError "Buffer is unknown version of protocol")
        else match readUInt32LE buf 5 with
          | .error e => .error e
          | .ok cs =>
            match readString buf 9 with
            | .error e => .error e
            | .ok un => .ok ⟨version, cs, un⟩

/-- Payload of AUTH_NEGOTIATE: client session id, session id, salt bytes
and the username as its ASCII bytes. -/
structure AuthNegotiateData where
  clientSession : Nat
  session : Nat
  salt : Bytes
  username : Bytes
  deriving DecidableEq, Repr

/-- proto.js `authNegotiate.marshall`: header, literal version 1, client
session id, session id, salt length byte, salt, NUL-terminated username. -/
def authNegotiate.marshall (d : AuthNegotiateData) : Except JsErr Bytes :=
  if d.clientSession ≤ 4294967295 then
    if d.session ≤ 4294967295 then
      if d.salt.length ≤ 255 then
        .ok (u32LE AUTH_NEGOTIATE ++ [1] ++ u32LE d.clientSession ++ u32LE d.session ++
          [d.salt.length] ++ d.salt ++ d.username ++ [0])
      else .error .rangeError
    else .error .rangeError
  else .error .rangeError

/-- proto.js `authNegotiate.unmarshall`: magic and strict version-1 check,
salt length at offset 13, salt copied from offset 14, then client session,
session and username after the salt. -/
def authNegotiate.unmarshall (buf : Bytes) : Except JsErr AuthNegotiateData :=
  match readUInt32LE buf 0 with
  | .error e => .error e
  | .ok m =>
    if m ≠ AUTH_NEGOTIATE then .error (.typeError "Buffer is not a AUTH_NEGOTIATE packet")
    else match readUInt8 buf 4 with
      | .error e => .error e
      | .ok v =>
        if v ≠ 1 then .error (.typeError "Buffer is incorrect version of protocol")
        else match readUInt8 buf 13 with
          | .error e => .error e
          | .ok saltLen =>
            let salt := sliceZeroPad buf 14 saltLen
            match readUInt32LE buf 5 with
            | .error e => .error e
            | .ok cs =>
              match readUInt32LE buf 9 with
              | .error e => .error e
              | .ok sess =>
                match readString buf (14 + saltLen) with
                | .error e => .error e
                | .ok un => .ok ⟨cs, sess, salt, un⟩

/-- Payload of SERVER_EPHEMERAL / AUTH_EPHEMERAL: session id and the
ephemeral value bytes. -/
structure EphemeralData where
  session : Nat
  ephemeral : Bytes
  deriving DecidableEq, Repr

/-- proto.js `serverEphemeral.marshall`: header, session id, 16-bit
ephemeral length, ephemeral bytes. -/
def serverEphemeral.marshall (d : EphemeralData) : Except JsErr Bytes :=
  if d.session ≤ 4294967295 then
    if d.ephemeral.length ≤ 65535 then
      .ok (u32LE SERVER_EPHEMERAL ++ u32LE d.session ++ u16LE d.ephemeral.length ++ d.ephemeral)
    else .error .rangeError
  else .error .rangeError

/-- proto.js `serverEphemeral.unmarshall`: magic check, unsigned 16-bit
length at offset 8, ephemeral copied (and zero-padded if short) from
offset 10, session id at offset 4. -/
def serverEphemeral.unmarshall (buf : Bytes) : Except JsErr EphemeralData :=
  match readUInt32LE buf 0 with
  | .error e => .error e
  | .ok m =>
    if m ≠ SERVER_EPHEMERAL then .error (.typeError "Buffer is not a SERVER_EPHEMERAL packet")
    else match readUInt16LE buf 8 with
      | .error e => .error e
      | .ok len =>
        let eph := sliceZeroPad buf 10 len
        match readUInt32LE buf 4 with
        | .error e => .error e
        | .ok sess => .ok ⟨sess, eph⟩

/-- proto.js `authEphemeral.marshall`: identical layout to SERVER_EPHEMERAL
under the AUTH_EPHEMERAL magic. -/
def authEphemeral.marshall (d : EphemeralData) : Except JsErr Bytes :=
  if d.session ≤ 4294967295 then
    if d.ephemeral.length ≤ 65535 then
      .ok (u32LE AUTH_EPHEMERAL ++ u32LE d.session ++ u16LE d.ephemeral.length ++ d.ephemeral)
    else .error .rangeError
  else .error .rangeError

/-- proto.js `authEphemeral.unmarshall`. -/
def authEphemeral.unmarshall (buf : Bytes) : Except JsErr EphemeralData :=
  match readUInt32LE buf 0 with
  | .error e => .error e
  | .ok m =>
    if m ≠ AUTH_EPHEMERAL then .error (.typeError "Buffer is not an AUTH_EPHEMERAL packet")
    else match readUInt16LE buf 8 with
      | .error e => .error e
      | .ok len =>
        let eph := sliceZeroPad buf 10 len
        match readUInt32LE buf 4 with
        | .error e => .error e
        | .ok sess => .ok ⟨sess, eph⟩

/-- Payload of SERVER_PROOF / AUTH_PROOF: session id and the proof bytes. -/
structure ProofData where
  session : Nat
  proof : Bytes
  deriving DecidableEq, Repr

/-- proto.js `serverProof.marshall`. -/
def serverProof.marshall (d : ProofData) : Except JsErr Bytes :=
  if d.session ≤ 4294967295 then
    if d.proof.length ≤ 65535 then
      .ok (u32LE SERVER_PROOF ++ u32LE d.session ++ u16LE d.proof.length ++ d.proof)
    else .error .rangeError
  else .error .rangeError

/-- proto.js `serverProof.unmarshall`: reads the length with
`readUInt16LE` (unsigned). -/
def serverProof.unmarshall (buf : Bytes) : Except JsErr ProofData :=
  match readUInt32LE buf 0 with
  | .error e => .error e
  | .ok m =>
    if m ≠ SERVER_PROOF then .error (.typeError "Buffer is not an SERVER_PROOF packet")
    else match readUInt16LE buf 8 with
      | .error e => .error e
      | .ok len =>
        let prf := sliceZeroPad buf 10 len
        match readUInt32LE buf 4 with
        | .error e => .error e
        | .ok sess => .ok ⟨sess, prf⟩

/-- proto.js `authProof.marshall`: writes the proof length with
`writeUInt16LE` (unsigned). -/
def authProof.marshall (d : ProofData) : Except JsErr Bytes :=
  if d.session ≤ 4294967295 then
    if d.proof.length ≤ 65535 then
      .ok (u32LE AUTH_PROOF ++ u32LE d.session ++ u16LE d.proof.length ++ d.proof)
    else .error .rangeError
  else .error .rangeError

/-- proto.js `authProof.unmarshall`: reads the length with `readInt16LE`
(signed); a negative length then makes `Buffer.alloc` throw a RangeError. -/
def authProof.unmarshall (buf : Bytes) : Except JsErr ProofData :=
  match readUInt32LE buf 0 with
  | .error e => .error e
  | .ok m =>
    if m ≠ AUTH_PROOF then .error (.typeError "Buffer is not an AUTH_PROOF packet")
    else match readInt16LE buf 8 with
      | .error e => .error e
      | .ok plen =>
        if plen < 0 then .error .rangeError
        else
          let prf := sliceZeroPad buf 10 plen.toNat
          match readUInt32LE buf 4 with
          | .error e => .error e
          | .ok sess => .ok ⟨sess, prf⟩

/-- Payload of ERROR_USER: error code byte and the username bytes. -/
structure UserErrorData where
  error : Nat
  username : Bytes
  deriving DecidableEq, Repr

/-- proto.js `userError.marshall`: header, error byte, NUL-terminated
username. -/
def userError.marshall (d : UserErrorData) : Except JsErr Bytes :=
  if d.error ≤ 255 then
    .ok (u32LE ERROR_USER ++ [d.error] ++ d.username ++ [0])
  else .error .rangeError

/-- proto.js `userError.unmarshall`. -/
def userError.unmarshall (buf : Bytes) : Except JsErr UserErrorData :=
  match readUInt32LE buf 0 with
  | .error e => .error e
  | .ok m =>
    if m ≠ ERROR_USER then .error (.typeError "Buffer is not an ERROR_USER packet")
    else match readUInt8 buf 4 with
      | .error e => .error e
      | .ok err =>
        match readString buf 5 with
        | .error e => .error e
        | .ok un => .ok ⟨err, un⟩

/-- Payload of the v2 client-session error packet. -/
structure ClientSessionErrorData where
  error : Nat
  clientSession : Nat
  deriving DecidableEq, Repr

/-- proto.js `clientSessionError.marshall`: header, error byte, 32-bit
client session id; always 9 bytes. -/
def clientSessionError.marshall (d : ClientSessionErrorData) : Except JsErr Bytes :=
  if d.error ≤ 255 then
    if d.clientSession ≤ 4294967295 then
      .ok (u32LE ERROR_CLIENTSESSION ++ [d.error] ++ u32LE d.clientSession)
    else .error .rangeError
  else .error .rangeError

/-- proto.js `clientSessionError.unmarshall`: magic check, then the client
session id at offset 5 and the error byte at offset 4 (in that order). -/
def clientSessionError.unmarshall (buf : Bytes) : Except JsErr ClientSessionErrorData :=
  match readUInt32LE buf 0 with
  | .error e => .error e
  | .ok m =>
    if m ≠ ERROR_CLIENTSESSION then .error (.typeError "Buffer is not an ERROR_SESSION packet")
    else match readUInt32LE buf 5 with
      | .error e => .error e
      | .ok cs =>
        match readUInt8 buf 4 with
        | .error e => .error e
        | .ok err => .ok ⟨err, cs⟩

/-- Payload of the legacy v1 SERVER_NEGOTIATE packet: only a username. -/
structure V1NegotiateData where
  username : Bytes
  deriving DecidableEq, Repr

/-- Legacy v1 codec `serverNegotiate.marshall` (the older proto.js kept in
the repository): header, literal version 1, NUL-terminated username, with
no client session field. -/
def v1serverNegotiate.marshall (d : V1NegotiateData) : Except JsErr Bytes :=
  .ok (u32LE SERVER_NEGOTIATE ++ [1] ++ d.username ++ [0])

/-- Legacy v1 codec `serverNegotiate.unmarshall`: magic check, strict
version-1 check, username read at offset 5. -/
def v1serverNegotiate.unmarshall (buf : Bytes) : Except JsErr V1NegotiateData :=
  match readUInt32LE buf 0 with
  | .error e => .error e
  | .ok m =>
    if m ≠ SERVER_NEGOTIATE then .error (.typeError "Buffer is not a SERVER_NEGOTIATE packet")
    else match readUInt8 buf 4 with
      | .error e => .error e
      | .ok v =>
        if v ≠ 1 then .error (.typeError "Buffer is incorrect version of protocol")
        else match readString buf 5 with
          | .error e => .error e
          | .ok un => .ok ⟨un⟩

/-! ### Credential and session stores (source/dbconn.js) -/

/-- Access levels of the User model in dbconn.js. -/
inductive Access where
  | OWNER
  | MASTER
  | OP
  | USER
  | UNVERIFIED
  deriving DecidableEq, Repr

/-- Lowercasing of one ASCII byte, the byte-level effect of JavaScript
`toLowerCase` on the ASCII usernames the server stores. -/
def lowerByte (b : Nat) : Nat :=
  if 65 ≤ b ∧ b ≤ 90 then b + 32 else b

/-- Byte-wise lowercasing of a username. -/
def toLowerBytes (bs : Bytes) : Bytes := bs.map lowerByte

/-- `crypto.randomBytes(n)` modelled as `n` bytes drawn from a random
stream `rng` starting at position `pos`; always returns exactly `n`
bytes. -/
def randomBytes (rng : Nat → Nat) (pos n : Nat) : Bytes :=
  (List.range n).map (fun i => rng (pos + i) % 256)

/-- A row of the User table in dbconn.js. -/
structure UserRow where
  id : Nat
  username : Bytes
  email : Bytes
  verifier : Bytes
  salt : Bytes
  access : Access
  active : Bool
  deriving DecidableEq, Repr

/-- dbconn.js `User.prototype.setPassword`: draw a fresh 4-byte salt and
derive the verifier from that salt, the lowercased stored username and
the password, writing both fields in the same step.  `cv` is the SRP
`computeVerifier` function, taken as a parameter. -/
def UserRow.setPassword (cv : Bytes → Bytes → Bytes → Bytes) (rng : Nat → Nat)
    (pos : Nat) (password : Bytes) (u : UserRow) : UserRow :=
  let salt := randomBytes rng pos 4
  UserRow.mk u.id u.username u.email (cv salt (toLowerBytes u.username) password) salt
    u.access u.active

/-- Operations that write the credential store: `DBConn.prototype.addUser`
and a save after `User.prototype.setPassword` (the only two writers of
the salt and verifier columns in the repository). -/
inductive CredOp where
  | addUser (username password email : Bytes) (access : Access)
  | setPassword (uid : Nat) (password : Bytes)

/-- State of the credential store: the user rows plus the autoincrement
id and the position in the random stream. -/
structure CredState where
  users : List UserRow
  nextId : Nat
  rngPos : Nat

/-- Empty credential store. -/
def initCredState : CredState := CredState.mk [] 0 0

/-- One step of the credential store.  `addUser` mirrors dbconn.js:
lowercase the username, draw a 4-byte salt, derive the verifier from the
salt and the lowercased username, and create the row (active exactly when
the access level is not UNVERIFIED).  `setPassword` applies
`UserRow.setPassword` to the row with the given id and saves it. -/
def applyCredOp (cv : Bytes → Bytes → Bytes → Bytes) (rng : Nat → Nat)
    (st : CredState) : CredOp → CredState
  | .addUser username password email access =>
    let salt := randomBytes rng st.rngPos 4
    let verifier := cv salt (toLowerBytes username) password
    let row := UserRow.mk st.nextId (toLowerBytes username) email verifier salt access
      (access ≠ Access.UNVERIFIED)
    CredState.mk (st.users ++ [row]) (st.nextId + 1) (st.rngPos + 4)
  | .setPassword uid password =>
    CredState.mk
      (st.users.map (fun u => if u.id = uid then u.setPassword cv rng st.rngPos password else u))
      st.nextId (st.rngPos + 4)

/-- Run a sequence of credential-store operations from the empty store. -/
def runCredOps (cv : Bytes → Bytes → Bytes → Bytes) (rng : Nat → Nat)
    (ops : List CredOp) : CredState :=
  ops.foldl (applyCredOp cv rng) initCredState

/-- A row of the Session table in dbconn.js: session id, ephemeral and
secret blobs (null until `setEphemeral`), the attached user and the
creation time in seconds. -/
structure SessionRow where
  session : Nat
  ephemeral : Option Bytes
  secret : Option Bytes
  userId : Option Nat
  createdAt : Int
  deriving DecidableEq, Repr

/-- `crypto.randomBytes(4).readUInt32LE(0)`: the 32-bit session id drawn
in `DBConn.prototype.newSession`. -/
def rand32 (rng : Nat → Nat) (pos : Nat) : Nat :=
  rng pos % 256 + 256 * (rng (pos + 1) % 256) +
    65536 * (rng (pos + 2) % 256) + 16777216 * (rng (pos + 3) % 256)

/-- dbconn.js `DBConn.prototype.newSession`: draw a random 32-bit id and
create the session row attached to the user, with ephemeral and secret
null.  There is no collision check and no retry. -/
def newSession (rng : Nat → Nat) (pos : Nat) (now : Int) (uid : Nat)
    (store : List SessionRow) : List SessionRow :=
  store ++ [SessionRow.mk (rand32 rng pos) none none (some uid) now]

/-- A run of `n` consecutive `newSession` calls from the empty store, the
`i`-th call consuming random bytes `4*i .. 4*i+3` and attaching user
`uids i` at time `nows i`. -/
def runNewSessions (rng : Nat → Nat) (uids : Nat → Nat) (nows : Nat → Int) : Nat → List SessionRow
  | 0 => []
  | n + 1 => newSession rng (4 * n) (nows n) (uids n) (runNewSessions rng uids nows n)

/-- dbconn.js `DBConn.prototype.setEphemeral`: find the first row with the
given session id whose ephemeral and secret are both null; if none, fail
with "Session not found", otherwise write both fields. -/
def setEphemeral (s : Nat) (e sec : Bytes) : List SessionRow → Except JsErr (List SessionRow)
  | [] => .error (.errorMsg "Session not found")
  | r :: rest =>
    if r.session = s ∧ r.ephemeral = none ∧ r.secret = none then
      .ok (SessionRow.mk r.session (some e) (some sec) r.userId r.createdAt :: rest)
    else
      (setEphemeral s e sec rest).map (fun rest2 => r :: rest2)

/-- User lookup by primary key, modelling `sess.getUser()`. -/
def lookupUser (users : List UserRow) (uid : Nat) : Option UserRow :=
  users.find? (fun u => u.id == uid)

/-- dbconn.js `DBConn.prototype.findSession`: find the row by session id,
fail if missing; fail if the age in seconds exceeds the timeout; fail if
no user is attached or the attached user is UNVERIFIED; otherwise return
the session row. -/
def findSession (users : List UserRow) (now : Int) (timeout : Int) (s : Nat)
    (store : List SessionRow) : Except JsErr SessionRow :=
  match store.find? (fun r => r.session == s) with
  | none => .error (.sessionNotFound "Session not found")
  | some sess =>
    if now - sess.createdAt > timeout then .error (.errorMsg "Session has expired")
    else match sess.userId.bind (lookupUser users) with
      | none => .error (.errorMsg "Session is not attached to User")
      | some u =>
        if u.access = Access.UNVERIFIED then
          .error (.errorMsg "Session belongs to UNVERIFIED User")
        else .ok sess

/-! ### Positional read lemmas -/

/-- Reading past a prefix of known length lands in the suffix. -/
theorem getD_append_shift (pre l : Bytes) (i : Nat) :
    (pre ++ l).getD (pre.length + i) 0 = l.getD i 0 := by
  induction pre with
  | nil => simp
  | cons b rest ih =>
    have h : (b :: rest).length + i = (rest.length + i) + 1 := by
      simp [List.length_cons]; omega
    rw [h, List.cons_append, List.getD_cons_succ, ih]

theorem readUInt8_at (pre suf : Bytes) (b off : Nat) (h : pre.length = off) :
    readUInt8 (pre ++ b :: suf) off = .ok b := by
  subst h
  have h0 := getD_append_shift pre (b :: suf) 0
  rw [Nat.add_zero, List.getD_cons_zero] at h0
  have hlen : pre.length + 1 ≤ (pre ++ b :: suf).length := by
    simp [List.length_append]
  rw [readUInt8, if_pos hlen, h0]

theorem u16LE_length (v : Nat) : (u16LE v).length = 2 := by simp [u16LE]

theorem u32LE_length (v : Nat) : (u32LE v).length = 4 := by simp [u32LE]

theorem readUInt16LE_at (pre suf : Bytes) (v off : Nat) (h : pre.length = off)
    (hv : v ≤ 65535) : readUInt16LE (pre ++ u16LE v ++ suf) off = .ok v := by
  subst h
  rw [List.append_assoc]
  have h0 : (pre ++ (u16LE v ++ suf)).getD pre.length 0 = v % 256 := by
    have := getD_append_shift pre (u16LE v ++ suf) 0
    simpa [u16LE] using this
  have h1 : (pre ++ (u16LE v ++ suf)).getD (pre.length + 1) 0 = v / 256 % 256 := by
    have := getD_append_shift pre (u16LE v ++ suf) 1
    simpa [u16LE] using this
  have hlen : pre.length + 2 ≤ (pre ++ (u16LE v ++ suf)).length := by
    simp [List.length_append, u16LE]
  simp only [readUInt16LE, if_pos hlen, h0, h1]
  congr 1
  omega

theorem readUInt32LE_at (pre suf : Bytes) (v off : Nat) (h : pre.length = off)
    (hv : v ≤ 4294967295) : readUInt32LE (pre ++ u32LE v ++ suf) off = .ok v := by
  subst h
  rw [List.append_assoc]
  have h0 : (pre ++ (u32LE v ++ suf)).getD pre.length 0 = v % 256 := by
    have := getD_append_shift pre (u32LE v ++ suf) 0
    simpa [u32LE] using this
  have h1 : (pre ++ (u32LE v ++ suf)).getD (pre.length + 1) 0 = v / 256 % 256 := by
    have := getD_append_shift pre (u32LE v ++ suf) 1
    simpa [u32LE] using this
  have h2 : (pre ++ (u32LE v ++ suf)).getD (pre.length + 2) 0 = v / 65536 % 256 := by
    have := getD_append_shift pre (u32LE v ++ suf) 2
    simpa [u32LE] using this
  have h3 : (pre ++ (u32LE v ++ suf)).getD (pre.length + 3) 0 = v / 16777216 % 256 := by
    have := getD_append_shift pre (u32LE v ++ suf) 3
    simpa [u32LE] using this
  have hlen : pre.length + 4 ≤ (pre ++ (u32LE v ++ suf)).length := by
    simp [List.length_append, u32LE]
  simp only [readUInt32LE, if_pos hlen, h0, h1, h2, h3]
  congr 1
  omega

theorem readInt16LE_at (pre suf : Bytes) (v off : Nat) (h : pre.length = off)
    (hv : v ≤ 65535) :
    readInt16LE (pre ++ u16LE v ++ suf) off =
      .ok (if v < 32768 then (v : Int) else (v : Int) - 65536) := by
  rw [readInt16LE, readUInt16LE_at pre suf v off h hv]
  simp [Except.map]

/-- Unfolding equation for the zero scan on a nonempty buffer. -/
theorem findZero_cons (b : Nat) (rest : Bytes) (i : Nat) :
    findZero (b :: rest) i = if b = 0 then some i else findZero rest (i + 1) := rfl

/-- The zero scan jumps over a block with no zero byte and lands on the
terminator that follows it. -/
theorem findZero_append : ∀ (name suf : Bytes) (i : Nat), (∀ b ∈ name, b ≠ 0) →
    findZero (name ++ 0 :: suf) i = some (i + name.length)
  | [], suf, i, _ => by simp [findZero_cons]
  | b :: rest, suf, i, h => by
    have hb : b ≠ 0 := h b (List.mem_cons_self b rest)
    have hrest : ∀ x ∈ rest, x ≠ 0 := fun x hx => h x (List.mem_cons_of_mem b hx)
    rw [List.cons_append, findZero_cons, if_neg hb,
      findZero_append rest suf (i + 1) hrest]
    congr 1
    simp only [List.length_cons]
    omega

theorem readString_at (pre name suf : Bytes) (off : Nat) (h : pre.length = off)
    (hname : ∀ b ∈ name, b ≠ 0) :
    readString (pre ++ name ++ (0 :: suf)) off = .ok name := by
  subst h
  have hdrop : (pre ++ name ++ (0 :: suf)).drop pre.length = name ++ (0 :: suf) := by
    rw [List.append_assoc]
    exact List.drop_left pre (name ++ (0 :: suf))
  rw [readString, hdrop, findZero_append name suf pre.length hname]
  simp [List.take_left]

/-- When the buffer holds exactly `len` bytes at `start`, the
alloc-and-copy returns them unchanged. -/
theorem sliceZeroPad_exact (pre payload suf : Bytes) (start : Nat)
    (h : pre.length = start) :
    sliceZeroPad (pre ++ payload ++ suf) start payload.length = payload := by
  subst h
  have hdrop : (pre ++ payload ++ suf).drop pre.length = payload ++ suf := by
    rw [List.append_assoc]
    exact List.drop_left pre (payload ++ suf)
  simp [sliceZeroPad, hdrop, List.take_left]

/-- When fewer than `len` bytes remain, the alloc-and-copy zero-pads. -/
theorem sliceZeroPad_short (pre suf : Bytes) (start len : Nat)
    (h : pre.length = start) (hlen : suf.length ≤ len) :
    sliceZeroPad (pre ++ suf) start len = suf ++ List.replicate (len - suf.length) 0 := by
  subst h
  have hdrop : (pre ++ suf).drop pre.length = suf := List.drop_left pre suf
  have htake : suf.take len = suf := List.take_of_length_le hlen
  simp [sliceZeroPad, hdrop, htake]

/-! ### Codec round-trip lemmas -/

theorem serverNegotiate_marshall_eq (d : NegotiateData) (h1 : d.version ≤ 255)
    (h2 : d.clientSession ≤ 4294967295) :
    serverNegotiate.marshall d =
      .ok (u32LE SERVER_NEGOTIATE ++ [d.version] ++ u32LE d.clientSession ++ d.username ++ [0]) := by
  rw [serverNegotiate.marshall, if_pos h1, if_pos h2]

theorem serverNegotiate_unmarshall_ok (v cs : Nat) (un : Bytes)
    (hv : v = 1 ∨ v = 2) (hcs : cs ≤ 4294967295) (hun : ∀ b ∈ un, b ≠ 0) :
    serverNegotiate.unmarshall (u32LE SERVER_NEGOTIATE ++ [v] ++ u32LE cs ++ un ++ [0]) =
      .ok ⟨v, cs, un⟩ := by
  have e0 : u32LE SERVER_NEGOTIATE ++ [v] ++ u32LE cs ++ un ++ [0] =
      ([] : Bytes) ++ u32LE SERVER_NEGOTIATE ++ ([v] ++ (u32LE cs ++ (un ++ [0]))) := by
    simp only [List.append_assoc, List.nil_append]
  have e4 : u32LE SERVER_NEGOTIATE ++ [v] ++ u32LE cs ++ un ++ [0] =
      u32LE SERVER_NEGOTIATE ++ (v :: (u32LE cs ++ (un ++ [0]))) := by
    simp
  have e5 : u32LE SERVER_NEGOTIATE ++ [v] ++ u32LE cs ++ un ++ [0] =
      (u32LE SERVER_NEGOTIATE ++ [v]) ++ u32LE cs ++ (un ++ [0]) := by
    simp only [List.append_assoc]
  have r0 : readUInt32LE (u32LE SERVER_NEGOTIATE ++ [v] ++ u32LE cs ++ un ++ [0]) 0 =
      .ok SERVER_NEGOTIATE := by
    rw [e0]
    exact readUInt32LE_at [] _ _ 0 rfl (by norm_num [SERVER_NEGOTIATE])
  have r4 : readUInt8 (u32LE SERVER_NEGOTIATE ++ [v] ++ u32LE cs ++ un ++ [0]) 4 = .ok v := by
    rw [e4]
    exact readUInt8_at (u32LE SERVER_NEGOTIATE) _ v 4 (u32LE_length _)
  have r5 : readUInt32LE (u32LE SERVER_NEGOTIATE ++ [v] ++ u32LE cs ++ un ++ [0]) 5 =
      .ok cs := by
    rw [e5]
    exact readUInt32LE_at (u32LE SERVER_NEGOTIATE ++ [v]) (un ++ [0]) cs 5
      (by simp [List.length_append, u32LE_length]) hcs
  have r9 : readString (u32LE SERVER_NEGOTIATE ++ [v] ++ u32LE cs ++ un ++ [0]) 9 =
      .ok un :=
    readString_at (u32LE SERVER_NEGOTIATE ++ [v] ++ u32LE cs) un [] 9
      (by simp [List.length_append, u32LE_length]) hun
  rcases hv with h | h <;> subst h <;>
    simp only [serverNegotiate.unmarshall, r0, r4, r5, r9] <;> norm_num

theorem authNegotiate_marshall_eq (d : AuthNegotiateData) (h1 : d.clientSession ≤ 4294967295)
    (h2 : d.session ≤ 4294967295) (h3 : d.salt.length ≤ 255) :
    authNegotiate.marshall d =
      .ok (u32LE AUTH_NEGOTIATE ++ [1] ++ u32LE d.clientSession ++ u32LE d.session ++
        [d.salt.length] ++ d.salt ++ d.username ++ [0]) := by
  rw [authNegotiate.marshall, if_pos h1, if_pos h2, if_pos h3]

theorem authNegotiate_unmarshall_ok (cs sess : Nat) (salt un : Bytes)
    (hcs : cs ≤ 4294967295) (hsess : sess ≤ 4294967295) (_hsalt : salt.length ≤ 255)
    (hun : ∀ b ∈ un, b ≠ 0) :
    authNegotiate.unmarshall (u32LE AUTH_NEGOTIATE ++ [1] ++ u32LE cs ++ u32LE sess ++
      [salt.length] ++ salt ++ un ++ [0]) = .ok ⟨cs, sess, salt, un⟩ := by
  have e0 : u32LE AUTH_NEGOTIATE ++ [1] ++ u32LE cs ++ u32LE sess ++
      [salt.length] ++ salt ++ un ++ [0] =
      ([] : Bytes) ++ u32LE AUTH_NEGOTIATE ++
        ([1] ++ (u32LE cs ++ (u32LE sess ++ ([salt.length] ++ (salt ++ (un ++ [0])))))) := by
    simp
  have e4 : u32LE AUTH_NEGOTIATE ++ [1] ++ u32LE cs ++ u32LE sess ++
      [salt.length] ++ salt ++ un ++ [0] =
      u32LE AUTH_NEGOTIATE ++
        ((1 : Nat) :: (u32LE cs ++ (u32LE sess ++ ([salt.length] ++ (salt ++ (un ++ [0])))))) := by
    simp
  have e5 : u32LE AUTH_NEGOTIATE ++ [1] ++ u32LE cs ++ u32LE sess ++
      [salt.length] ++ salt ++ un ++ [0] =
      (u32LE AUTH_NEGOTIATE ++ [1]) ++ u32LE cs ++
        (u32LE sess ++ ([salt.length] ++ (salt ++ (un ++ [0])))) := by
    simp
  have e9 : u32LE AUTH_NEGOTIATE ++ [1] ++ u32LE cs ++ u32LE sess ++
      [salt.length] ++ salt ++ un ++ [0] =
      (u32LE AUTH_NEGOTIATE ++ [1] ++ u32LE cs) ++ u32LE sess ++
        ([salt.length] ++ (salt ++ (un ++ [0]))) := by
    simp
  have e13 : u32LE AUTH_NEGOTIATE ++ [1] ++ u32LE cs ++ u32LE sess ++
      [salt.length] ++ salt ++ un ++ [0] =
      (u32LE AUTH_NEGOTIATE ++ [1] ++ u32LE cs ++ u32LE sess) ++
        (salt.length :: (salt ++ (un ++ [0]))) := by
    simp
  have e14 : u32LE AUTH_NEGOTIATE ++ [1] ++ u32LE cs ++ u32LE sess ++
      [salt.length] ++ salt ++ un ++ [0] =
      (u32LE AUTH_NEGOTIATE ++ [1] ++ u32LE cs ++ u32LE sess ++ [salt.length]) ++ salt ++
        (un ++ [0]) := by
    simp
  have r0 : readUInt32LE (u32LE AUTH_NEGOTIATE ++ [1] ++ u32LE cs ++ u32LE sess ++
      [salt.length] ++ salt ++ un ++ [0]) 0 = .ok AUTH_NEGOTIATE := by
    rw [e0]
    exact readUInt32LE_at [] _ _ 0 rfl (by norm_num [AUTH_NEGOTIATE])
  have r4 : readUInt8 (u32LE AUTH_NEGOTIATE ++ [1] ++ u32LE cs ++ u32LE sess ++
      [salt.length] ++ salt ++ un ++ [0]) 4 = .ok 1 := by
    rw [e4]
    exact readUInt8_at (u32LE AUTH_NEGOTIATE) _ 1 4 (u32LE_length _)
  have r5 : readUInt32LE (u32LE AUTH_NEGOTIATE ++ [1] ++ u32LE cs ++ u32LE sess ++
      [salt.length] ++ salt ++ un ++ [0]) 5 = .ok cs := by
    rw [e5]
    exact readUInt32LE_at (u32LE AUTH_NEGOTIATE ++ [1]) _ cs 5
      (by simp [List.length_append, u32LE_length]) hcs
  have r9 : readUInt32LE (u32LE AUTH_NEGOTIATE ++ [1] ++ u32LE cs ++ u32LE sess ++
      [salt.length] ++ salt ++ un ++ [0]) 9 = .ok sess := by
    rw [e9]
    exact readUInt32LE_at (u32LE AUTH_NEGOTIATE ++ [1] ++ u32LE cs) _ sess 9
      (by simp [List.length_append, u32LE_length]) hsess
  have r13 : readUInt8 (u32LE AUTH_NEGOTIATE ++ [1] ++ u32LE cs ++ u32LE sess ++
      [salt.length] ++ salt ++ un ++ [0]) 13 = .ok salt.length := by
    rw [e13]
    exact readUInt8_at (u32LE AUTH_NEGOTIATE ++ [1] ++ u32LE cs ++ u32LE sess) _ salt.length 13
      (by simp [List.length_append, u32LE_length])
  have rsl : sliceZeroPad (u32LE AUTH_NEGOTIATE ++ [1] ++ u32LE cs ++ u32LE sess ++
      [salt.length] ++ salt ++ un ++ [0]) 14 salt.length = salt := by
    rw [e14]
    exact sliceZeroPad_exact _ salt _ 14 (by simp [List.length_append, u32LE_length])
  have rstr : readString (u32LE AUTH_NEGOTIATE ++ [1] ++ u32LE cs ++ u32LE sess ++
      [salt.length] ++ salt ++ un ++ [0]) (14 + salt.length) = .ok un :=
    readString_at (u32LE AUTH_NEGOTIATE ++ [1] ++ u32LE cs ++ u32LE sess ++
      [salt.length] ++ salt) un [] (14 + salt.length)
      (by simp [List.length_append, u32LE_length]; omega) hun
  simp only [authNegotiate.unmarshall, r0, r4, r5, r9, r13, rsl, rstr]
  norm_num

/-- Shared positional facts for the four `magic | session | len u16 | payload`
packets. -/
theorem ephemeralLike_reads (MAGIC sess : Nat) (payload : Bytes)
    (hm : MAGIC ≤ 4294967295) (hsess : sess ≤ 4294967295) (hlen : payload.length ≤ 65535) :
    readUInt32LE (u32LE MAGIC ++ u32LE sess ++ u16LE payload.length ++ payload) 0 = .ok MAGIC ∧
    readUInt32LE (u32LE MAGIC ++ u32LE sess ++ u16LE payload.length ++ payload) 4 = .ok sess ∧
    readUInt16LE (u32LE MAGIC ++ u32LE sess ++ u16LE payload.length ++ payload) 8 =
      .ok payload.length ∧
    sliceZeroPad (u32LE MAGIC ++ u32LE sess ++ u16LE payload.length ++ payload) 10
      payload.length = payload := by
  have e0 : u32LE MAGIC ++ u32LE sess ++ u16LE payload.length ++ payload =
      ([] : Bytes) ++ u32LE MAGIC ++ (u32LE sess ++ (u16LE payload.length ++ payload)) := by
    simp
  have e4 : u32LE MAGIC ++ u32LE sess ++ u16LE payload.length ++ payload =
      u32LE MAGIC ++ u32LE sess ++ (u16LE payload.length ++ payload) := by
    simp
  have e8 : u32LE MAGIC ++ u32LE sess ++ u16LE payload.length ++ payload =
      (u32LE MAGIC ++ u32LE sess) ++ u16LE payload.length ++ payload := by
    simp
  have e10 : u32LE MAGIC ++ u32LE sess ++ u16LE payload.length ++ payload =
      (u32LE MAGIC ++ u32LE sess ++ u16LE payload.length) ++ payload ++ ([] : Bytes) := by
    simp
  refine ⟨?_, ?_, ?_, ?_⟩
  · rw [e0]
    exact readUInt32LE_at [] _ _ 0 rfl hm
  · rw [e4]
    exact readUInt32LE_at (u32LE MAGIC) _ sess 4 (u32LE_length _) hsess
  · rw [e8]
    exact readUInt16LE_at (u32LE MAGIC ++ u32LE sess) _ payload.length 8
      (by simp [List.length_append, u32LE_length]) hlen
  · rw [e10]
    exact sliceZeroPad_exact _ payload _ 10
      (by simp [List.length_append, u32LE_length, u16LE_length])

theorem serverEphemeral_marshall_eq (d : EphemeralData) (h1 : d.session ≤ 4294967295)
    (h2 : d.ephemeral.length ≤ 65535) :
    serverEphemeral.marshall d =
      .ok (u32LE SERVER_EPHEMERAL ++ u32LE d.session ++ u16LE d.ephemeral.length ++
        d.ephemeral) := by
  rw [serverEphemeral.marshall, if_pos h1, if_pos h2]

theorem serverEphemeral_unmarshall_ok (sess : Nat) (eph : Bytes)
    (hsess : sess ≤ 4294967295) (hlen : eph.length ≤ 65535) :
    serverEphemeral.unmarshall (u32LE SERVER_EPHEMERAL ++ u32LE sess ++ u16LE eph.length ++
      eph) = .ok ⟨sess, eph⟩ := by
  obtain ⟨r0, r4, r8, rsl⟩ := ephemeralLike_reads SERVER_EPHEMERAL sess eph
    (by norm_num [SERVER_EPHEMERAL]) hsess hlen
  simp only [serverEphemeral.unmarshall, r0, r4, r8, rsl]
  norm_num

theorem authEphemeral_marshall_eq (d : EphemeralData) (h1 : d.session ≤ 4294967295)
    (h2 : d.ephemeral.length ≤ 65535) :
    authEphemeral.marshall d =
      .ok (u32LE AUTH_EPHEMERAL ++ u32LE d.session ++ u16LE d.ephemeral.length ++
        d.ephemeral) := by
  rw [authEphemeral.marshall, if_pos h1, if_pos h2]

theorem authEphemeral_unmarshall_ok (sess : Nat) (eph : Bytes)
    (hsess : sess ≤ 4294967295) (hlen : eph.length ≤ 65535) :
    authEphemeral.unmarshall (u32LE AUTH_EPHEMERAL ++ u32LE sess ++ u16LE eph.length ++
      eph) = .ok ⟨sess, eph⟩ := by
  obtain ⟨r0, r4, r8, rsl⟩ := ephemeralLike_reads AUTH_EPHEMERAL sess eph
    (by norm_num [AUTH_EPHEMERAL]) hsess hlen
  simp only [authEphemeral.unmarshall, r0, r4, r8, rsl]
  norm_num

theorem serverProof_marshall_eq (d : ProofData) (h1 : d.session ≤ 4294967295)
    (h2 : d.proof.length ≤ 65535) :
    serverProof.marshall d =
      .ok (u32LE SERVER_PROOF ++ u32LE d.session ++ u16LE d.proof.length ++ d.proof) := by
  rw [serverProof.marshall, if_pos h1, if_pos h2]

theorem serverProof_unmarshall_ok (sess : Nat) (prf : Bytes)
    (hsess : sess ≤ 4294967295) (hlen : prf.length ≤ 65535) :
    serverProof.unmarshall (u32LE SERVER_PROOF ++ u32LE sess ++ u16LE prf.length ++ prf) =
      .ok ⟨sess, prf⟩ := by
  obtain ⟨r0, r4, r8, rsl⟩ := ephemeralLike_reads SERVER_PROOF sess prf
    (by norm_num [SERVER_PROOF]) hsess hlen
  simp only [serverProof.unmarshall, r0, r4, r8, rsl]
  norm_num

theorem authProof_marshall_eq (d : ProofData) (h1 : d.session ≤ 4294967295)
    (h2 : d.proof.length ≤ 65535) :
    authProof.marshall d =
      .ok (u32LE AUTH_PROOF ++ u32LE d.session ++ u16LE d.proof.length ++ d.proof) := by
  rw [authProof.marshall, if_pos h1, if_pos h2]

theorem authProof_unmarshall_ok (sess : Nat) (prf : Bytes)
    (hsess : sess ≤ 4294967295) (hlen : prf.length < 32768) :
    authProof.unmarshall (u32LE AUTH_PROOF ++ u32LE sess ++ u16LE prf.length ++ prf) =
      .ok ⟨sess, prf⟩ := by
  obtain ⟨r0, r4, r8, rsl⟩ := ephemeralLike_reads AUTH_PROOF sess prf
    (by norm_num [AUTH_PROOF]) hsess (by omega)
  have r8i : readInt16LE (u32LE AUTH_PROOF ++ u32LE sess ++ u16LE prf.length ++ prf) 8 =
      .ok (prf.length : Int) := by
    rw [readInt16LE, r8]
    simp [Except.map, hlen]
  have htoNat : ((prf.length : Int)).toNat = prf.length := Int.toNat_natCast _
  simp only [authProof.unmarshall, r0, r4, r8i, htoNat, rsl]
  norm_num

/-- The signed length read makes `authProof.unmarshall` reject every
buffer whose 16-bit length field is 0x8000 or more: the length decodes
negative and `Buffer.alloc` throws. -/
theorem authProof_unmarshall_neg (sess : Nat) (prf : Bytes)
    (hsess : sess ≤ 4294967295) (hlo : 32768 ≤ prf.length) (hhi : prf.length ≤ 65535) :
    authProof.unmarshall (u32LE AUTH_PROOF ++ u32LE sess ++ u16LE prf.length ++ prf) =
      .error .rangeError := by
  obtain ⟨r0, r4, r8, rsl⟩ := ephemeralLike_reads AUTH_PROOF sess prf
    (by norm_num [AUTH_PROOF]) hsess hhi
  have r8i : readInt16LE (u32LE AUTH_PROOF ++ u32LE sess ++ u16LE prf.length ++ prf) 8 =
      .ok ((prf.length : Int) - 65536) := by
    rw [readInt16LE, r8]
    have : ¬ prf.length < 32768 := by omega
    simp [Except.map, this]
  have hneg : ((prf.length : Int) - 65536) < 0 := by
    have : (prf.length : Int) ≤ 65535 := by exact_mod_cast hhi
    omega
  simp only [authProof.unmarshall, r0, r8i]
  norm_num
  omega

theorem userError_marshall_eq (d : UserErrorData) (h1 : d.error ≤ 255) :
    userError.marshall d = .ok (u32LE ERROR_USER ++ [d.error] ++ d.username ++ [0]) := by
  rw [userError.marshall, if_pos h1]

theorem userError_unmarshall_ok (err : Nat) (un : Bytes) (hun : ∀ b ∈ un, b ≠ 0) :
    userError.unmarshall (u32LE ERROR_USER ++ [err] ++ un ++ [0]) = .ok ⟨err, un⟩ := by
  have e0 : u32LE ERROR_USER ++ [err] ++ un ++ [0] =
      ([] : Bytes) ++ u32LE ERROR_USER ++ ([err] ++ (un ++ [0])) := by
    simp
  have e4 : u32LE ERROR_USER ++ [err] ++ un ++ [0] =
      u32LE ERROR_USER ++ (err :: (un ++ [0])) := by
    simp
  have r0 : readUInt32LE (u32LE ERROR_USER ++ [err] ++ un ++ [0]) 0 = .ok ERROR_USER := by
    rw [e0]
    exact readUInt32LE_at [] _ _ 0 rfl (by norm_num [ERROR_USER])
  have r4 : readUInt8 (u32LE ERROR_USER ++ [err] ++ un ++ [0]) 4 = .ok err := by
    rw [e4]
    exact readUInt8_at (u32LE ERROR_USER) _ err 4 (u32LE_length _)
  have r5 : readString (u32LE ERROR_USER ++ [err] ++ un ++ [0]) 5 = .ok un :=
    readString_at (u32LE ERROR_USER ++ [err]) un [] 5
      (by simp [List.length_append, u32LE_length]) hun
  simp only [userError.unmarshall, r0, r4, r5]
  norm_num

theorem clientSessionError_marshall_eq (d : ClientSessionErrorData) (h1 : d.error ≤ 255)
    (h2 : d.clientSession ≤ 4294967295) :
    clientSessionError.marshall d =
      .ok (u32LE ERROR_CLIENTSESSION ++ [d.error] ++ u32LE d.clientSession) := by
  rw [clientSessionError.marshall, if_pos h1, if_pos h2]

theorem clientSessionError_unmarshall_ok (err cs : Nat) (hcs : cs ≤ 4294967295) :
    clientSessionError.unmarshall (u32LE ERROR_CLIENTSESSION ++ [err] ++ u32LE cs) =
      .ok ⟨err, cs⟩ := by
  have e0 : u32LE ERROR_CLIENTSESSION ++ [err] ++ u32LE cs =
      ([] : Bytes) ++ u32LE ERROR_CLIENTSESSION ++ ([err] ++ u32LE cs) := by
    simp
  have e4 : u32LE ERROR_CLIENTSESSION ++ [err] ++ u32LE cs =
      u32LE ERROR_CLIENTSESSION ++ (err :: u32LE cs) := by
    simp
  have e5 : u32LE ERROR_CLIENTSESSION ++ [err] ++ u32LE cs =
      (u32LE ERROR_CLIENTSESSION ++ [err]) ++ u32LE cs ++ ([] : Bytes) := by
    simp
  have r0 : readUInt32LE (u32LE ERROR_CLIENTSESSION ++ [err] ++ u32LE cs) 0 =
      .ok ERROR_CLIENTSESSION := by
    rw [e0]
    exact readUInt32LE_at [] _ _ 0 rfl (by norm_num [ERROR_CLIENTSESSION])
  have r4 : readUInt8 (u32LE ERROR_CLIENTSESSION ++ [err] ++ u32LE cs) 4 = .ok err := by
    rw [e4]
    exact readUInt8_at (u32LE ERROR_CLIENTSESSION) _ err 4 (u32LE_length _)
  have r5 : readUInt32LE (u32LE ERROR_CLIENTSESSION ++ [err] ++ u32LE cs) 5 = .ok cs := by
    rw [e5]
    exact readUInt32LE_at (u32LE ERROR_CLIENTSESSION ++ [err]) _ cs 5
      (by simp [List.length_append, u32LE_length]) hcs
  simp only [clientSessionError.unmarshall, r0, r4, r5]
  norm_num

theorem v1serverNegotiate_unmarshall_ok (un : Bytes) (hun : ∀ b ∈ un, b ≠ 0) :
    v1serverNegotiate.unmarshall (u32LE SERVER_NEGOTIATE ++ [1] ++ un ++ [0]) = .ok ⟨un⟩ := by
  have e0 : u32LE SERVER_NEGOTIATE ++ [1] ++ un ++ [0] =
      ([] : Bytes) ++ u32LE SERVER_NEGOTIATE ++ ([1] ++ (un ++ [0])) := by
    simp
  have e4 : u32LE SERVER_NEGOTIATE ++ [1] ++ un ++ [0] =
      u32LE SERVER_NEGOTIATE ++ ((1 : Nat) :: (un ++ [0])) := by
    simp
  have r0 : readUInt32LE (u32LE SERVER_NEGOTIATE ++ [1] ++ un ++ [0]) 0 =
      .ok SERVER_NEGOTIATE := by
    rw [e0]
    exact readUInt32LE_at [] _ _ 0 rfl (by norm_num [SERVER_NEGOTIATE])
  have r4 : readUInt8 (u32LE SERVER_NEGOTIATE ++ [1] ++ un ++ [0]) 4 = .ok 1 := by
    rw [e4]
    exact readUInt8_at (u32LE SERVER_NEGOTIATE) _ 1 4 (u32LE_length _)
  have r5 : readString (u32LE SERVER_NEGOTIATE ++ [1] ++ un ++ [0]) 5 = .ok un :=
    readString_at (u32LE SERVER_NEGOTIATE ++ [1]) un [] 5
      (by simp [List.length_append, u32LE_length]) hun
  simp only [v1serverNegotiate.unmarshall, r0, r4, r5]
  norm_num

/-- A 32-bit read in bounds always succeeds. -/
theorem readUInt32LE_isOk (buf : Bytes) (off : Nat) (h : off + 4 ≤ buf.length) :
    ∃ v, readUInt32LE buf off = .ok v :=
  ⟨_, by rw [readUInt32LE, if_pos h]⟩

/-- A buffer containing a zero byte always yields a hit for the scan. -/
theorem findZero_isSome : ∀ (l : Bytes) (i : Nat), 0 ∈ l → ∃ z, findZero l i = some z
  | [], _, h => absurd h (List.not_mem_nil 0)
  | b :: rest, i, h => by
    by_cases hb : b = 0
    · exact ⟨i, by rw [findZero_cons, if_pos hb]⟩
    · have hrest : 0 ∈ rest := by
        rcases List.mem_cons.mp h with h1 | h1
        · exact absurd h1.symm hb
        · exact h1
      obtain ⟨z, hz⟩ := findZero_isSome rest (i + 1) hrest
      exact ⟨z, by rw [findZero_cons, if_neg hb, hz]⟩

/-- Generic reduction of `Except.bind` on a success value. -/
theorem exceptBind_ok {α β : Type} (x : α) (f : α → Except JsErr β) :
    (Except.ok x : Except JsErr α).bind f = f x := rfl

/-! ### Claim C1: codec round-trip -/

/-- Claim C1, counterexample: the round trip fails for a well-formed
AUTH_PROOF value whose proof is 0x8000 (32768) bytes long, although that
length is representable in 16 bits; unmarshall reads the length field
signed, sees -32768 and throws. -/
theorem authProof_roundtrip_fails_at_0x8000 :
    (List.replicate 32768 (0 : Nat)).length = 32768 ∧
    (authProof.marshall ⟨0, List.replicate 32768 0⟩).bind authProof.unmarshall =
      .error .rangeError := by
  have hlen : (List.replicate 32768 (0 : Nat)).length = 32768 := by
    rw [List.length_replicate]
  refine ⟨hlen, ?_⟩
  rw [authProof_marshall_eq ⟨0, List.replicate 32768 0⟩ (by norm_num)
    (by rw [hlen]; norm_num), exceptBind_ok]
  exact authProof_unmarshall_neg 0 (List.replicate 32768 0) (by norm_num)
    (by rw [hlen]) (by rw [hlen]; norm_num)

/-- Claim C1 (amended): for every well-formed packet value of each of the
six packet kinds, unmarshall (marshall p) = p, provided the AUTH_PROOF
proof is shorter than 0x8000 bytes; proof buffers of length 0x8000-0xFFFF
are marshalled fine but rejected by the signed length read on decode. -/
theorem codec_roundtrip (d1 : NegotiateData) (d2 : AuthNegotiateData)
    (d3 d4 : EphemeralData) (d5 d6 : ProofData)
    (h1v : d1.version = 1 ∨ d1.version = 2) (h1c : d1.clientSession ≤ 4294967295)
    (h1u : ∀ b ∈ d1.username, b ≠ 0)
    (h2c : d2.clientSession ≤ 4294967295) (h2s : d2.session ≤ 4294967295)
    (h2l : d2.salt.length ≤ 255) (h2u : ∀ b ∈ d2.username, b ≠ 0)
    (h3s : d3.session ≤ 4294967295) (h3l : d3.ephemeral.length ≤ 65535)
    (h4s : d4.session ≤ 4294967295) (h4l : d4.ephemeral.length ≤ 65535)
    (h5s : d5.session ≤ 4294967295) (h5l : d5.proof.length ≤ 65535)
    (h6s : d6.session ≤ 4294967295) (h6l : d6.proof.length < 32768) :
    (serverNegotiate.marshall d1).bind serverNegotiate.unmarshall = .ok d1 ∧
    (authNegotiate.marshall d2).bind authNegotiate.unmarshall = .ok d2 ∧
    (serverEphemeral.marshall d3).bind serverEphemeral.unmarshall = .ok d3 ∧
    (authEphemeral.marshall d4).bind authEphemeral.unmarshall = .ok d4 ∧
    (serverProof.marshall d5).bind serverProof.unmarshall = .ok d5 ∧
    (authProof.marshall d6).bind authProof.unmarshall = .ok d6 := by
  have h1v255 : d1.version ≤ 255 := by rcases h1v with h | h <;> omega
  refine ⟨?_, ?_, ?_, ?_, ?_, ?_⟩
  · rw [serverNegotiate_marshall_eq d1 h1v255 h1c]
    rw [exceptBind_ok]
    exact serverNegotiate_unmarshall_ok d1.version d1.clientSession d1.username h1v h1c h1u
  · rw [authNegotiate_marshall_eq d2 h2c h2s h2l]
    rw [exceptBind_ok]
    exact authNegotiate_unmarshall_ok d2.clientSession d2.session d2.salt d2.username
      h2c h2s h2l h2u
  · rw [serverEphemeral_marshall_eq d3 h3s h3l]
    rw [exceptBind_ok]
    exact serverEphemeral_unmarshall_ok d3.session d3.ephemeral h3s h3l
  · rw [authEphemeral_marshall_eq d4 h4s h4l]
    rw [exceptBind_ok]
    exact authEphemeral_unmarshall_ok d4.session d4.ephemeral h4s h4l
  · rw [serverProof_marshall_eq d5 h5s h5l]
    rw [exceptBind_ok]
    exact serverProof_unmarshall_ok d5.session d5.proof h5s h5l
  · rw [authProof_marshall_eq d6 h6s (by omega)]
    rw [exceptBind_ok]
    exact authProof_unmarshall_ok d6.session d6.proof h6s h6l

/-- Claim C1, witness: the round trip evaluated on one concrete value of
each packet kind. -/
theorem codec_roundtrip_witness :
    (serverNegotiate.marshall ⟨2, 7, [97]⟩).bind serverNegotiate.unmarshall =
      .ok ⟨2, 7, [97]⟩ ∧
    (authNegotiate.marshall ⟨1, 2, [9, 9, 9, 9], [98]⟩).bind authNegotiate.unmarshall =
      .ok ⟨1, 2, [9, 9, 9, 9], [98]⟩ ∧
    (serverEphemeral.marshall ⟨3, [5]⟩).bind serverEphemeral.unmarshall = .ok ⟨3, [5]⟩ ∧
    (authEphemeral.marshall ⟨4, []⟩).bind authEphemeral.unmarshall = .ok ⟨4, []⟩ ∧
    (serverProof.marshall ⟨5, [1, 2]⟩).bind serverProof.unmarshall = .ok ⟨5, [1, 2]⟩ ∧
    (authProof.marshall ⟨6, [9]⟩).bind authProof.unmarshall = .ok ⟨6, [9]⟩ :=
  codec_roundtrip ⟨2, 7, [97]⟩ ⟨1, 2, [9, 9, 9, 9], [98]⟩ ⟨3, [5]⟩ ⟨4, []⟩ ⟨5, [1, 2]⟩
    ⟨6, [9]⟩ (Or.inr rfl) (by norm_num) (by decide) (by norm_num) (by norm_num)
    (by decide) (by decide) (by norm_num) (by decide) (by norm_num) (by decide)
    (by norm_num) (by decide) (by norm_num) (by decide)

/-! ### Claim C3: AUTH_PROOF length field signed/unsigned mismatch -/

/-- Claim C3: the code violates the claim.  `authProof.marshall` writes
the proof length unsigned 16-bit little-endian (32768 encodes as bytes
00 80), but `authProof.unmarshall` reads the same field with
`readInt16LE`; on the wire bytes 00 80 it obtains -32768 rather than
32768 and fails with a RangeError instead of decoding the packet. -/
theorem authProof_length_signed_read_bug :
    u16LE 32768 = [0, 128] ∧
    authProof.marshall ⟨0, List.replicate 32768 0⟩ =
      .ok (u32LE AUTH_PROOF ++ u32LE 0 ++ u16LE 32768 ++ List.replicate 32768 0) ∧
    authProof.unmarshall
      (u32LE AUTH_PROOF ++ u32LE 0 ++ u16LE 32768 ++ List.replicate 32768 0) =
      .error .rangeError := by
  have hlen : (List.replicate 32768 (0 : Nat)).length = 32768 := by
    rw [List.length_replicate]
  refine ⟨by decide, ?_, ?_⟩
  · rw [authProof_marshall_eq ⟨0, List.replicate 32768 0⟩ (by norm_num)
      (by rw [hlen]; norm_num), hlen]
  · have := authProof_unmarshall_neg 0 (List.replicate 32768 0) (by norm_num)
      (by rw [hlen]) (by rw [hlen]; norm_num)
    rw [hlen] at this
    exact this

/-! ### Claim C2: decoder behaviour on malformed input -/

/-- Claim C2, counterexample: a 10-byte SERVER_EPHEMERAL buffer whose
16-bit length field (5) exceeds the 0 bytes remaining after offset 10 is
not rejected: unmarshall returns a decoded packet whose ephemeral is
zero-filled. -/
theorem serverEphemeral_overlong_length_accepted :
    (u32LE SERVER_EPHEMERAL ++ u32LE 0 ++ [5, 0]).length = 10 ∧
    serverEphemeral.unmarshall (u32LE SERVER_EPHEMERAL ++ u32LE 0 ++ [5, 0]) =
      .ok ⟨0, [0, 0, 0, 0, 0]⟩ :=
  ⟨rfl, rfl⟩

/-- Claim C2 (amended): the decoders do fail on a truncated buffer, a
wrong magic, an unknown version and a missing NUL terminator, but a
16-bit payload-length field exceeding the remaining bytes is not an
error: `serverEphemeral.unmarshall` zero-fills the missing bytes and
returns a decoded packet. -/
theorem decoder_malformed_contract :
    (∀ buf : Bytes, buf.length < 4 →
      serverEphemeral.unmarshall buf = .error .rangeError) ∧
    (∀ (buf : Bytes) (m : Nat), readUInt32LE buf 0 = .ok m → m ≠ SERVER_EPHEMERAL →
      serverEphemeral.unmarshall buf =
        .error (.typeError "Buffer is not a SERVER_EPHEMERAL packet")) ∧
    (∀ buf : Bytes, readUInt32LE buf 0 = .ok SERVER_EPHEMERAL → buf.length < 10 →
      serverEphemeral.unmarshall buf = .error .rangeError) ∧
    (∀ (buf : Bytes) (v : Nat), readUInt32LE buf 0 = .ok SERVER_NEGOTIATE →
      readUInt8 buf 4 = .ok v → v ≠ 1 → v ≠ 2 →
      serverNegotiate.unmarshall buf =
        .error (.typeError "Buffer is unknown version of protocol")) ∧
    (∀ (buf : Bytes) (v cs : Nat), readUInt32LE buf 0 = .ok SERVER_NEGOTIATE →
      readUInt8 buf 4 = .ok v → (v = 1 ∨ v = 2) → readUInt32LE buf 5 = .ok cs →
      findZero (buf.drop 9) 9 = none →
      serverNegotiate.unmarshall buf =
        .error (.typeError "Null-terminator not found in buffer")) ∧
    (∀ (sess len : Nat) (suf : Bytes), sess ≤ 4294967295 → len ≤ 65535 →
      suf.length ≤ len →
      serverEphemeral.unmarshall (u32LE SERVER_EPHEMERAL ++ u32LE sess ++ u16LE len ++ suf) =
        .ok ⟨sess, suf ++ List.replicate (len - suf.length) 0⟩) := by
  refine ⟨?_, ?_, ?_, ?_, ?_, ?_⟩
  · intro buf hlen
    have h0 : readUInt32LE buf 0 = .error .rangeError := by
      rw [readUInt32LE, if_neg (by omega)]
    simp only [serverEphemeral.unmarshall, h0]
  · intro buf m hm hne
    simp only [serverEphemeral.unmarshall, hm]
    rw [if_pos hne]
  · intro buf h0 hlen
    have h8 : readUInt16LE buf 8 = .error .rangeError := by
      rw [readUInt16LE, if_neg (by omega)]
    simp only [serverEphemeral.unmarshall, h0, h8]
    norm_num
  · intro buf v h0 h4 hv1 hv2
    simp only [serverNegotiate.unmarshall, h0, h4]
    norm_num
    intro h
    exact absurd h (by simp [hv1, hv2])
  · intro buf v cs h0 h4 hv h5 hfind
    have hstr : readString buf 9 =
        .error (.typeError "Null-terminator not found in buffer") := by
      simp only [readString, hfind]
    simp only [serverNegotiate.unmarshall, h0, h4, h5, hstr]
    rcases hv with h | h <;> subst h <;> norm_num
  · intro sess len suf hsess hlen hsl
    have e0 : u32LE SERVER_EPHEMERAL ++ u32LE sess ++ u16LE len ++ suf =
        ([] : Bytes) ++ u32LE SERVER_EPHEMERAL ++ (u32LE sess ++ (u16LE len ++ suf)) := by
      simp
    have e4 : u32LE SERVER_EPHEMERAL ++ u32LE sess ++ u16LE len ++ suf =
        u32LE SERVER_EPHEMERAL ++ u32LE sess ++ (u16LE len ++ suf) := by
      simp
    have e8 : u32LE SERVER_EPHEMERAL ++ u32LE sess ++ u16LE len ++ suf =
        (u32LE SERVER_EPHEMERAL ++ u32LE sess) ++ u16LE len ++ suf := by
      simp
    have e10 : u32LE SERVER_EPHEMERAL ++ u32LE sess ++ u16LE len ++ suf =
        (u32LE SERVER_EPHEMERAL ++ u32LE sess ++ u16LE len) ++ suf := by
      simp
    have r0 : readUInt32LE (u32LE SERVER_EPHEMERAL ++ u32LE sess ++ u16LE len ++ suf) 0 =
        .ok SERVER_EPHEMERAL := by
      rw [e0]
      exact readUInt32LE_at [] _ _ 0 rfl (by norm_num [SERVER_EPHEMERAL])
    have r4 : readUInt32LE (u32LE SERVER_EPHEMERAL ++ u32LE sess ++ u16LE len ++ suf) 4 =
        .ok sess := by
      rw [e4]
      exact readUInt32LE_at (u32LE SERVER_EPHEMERAL) _ sess 4 (u32LE_length _) hsess
    have r8 : readUInt16LE (u32LE SERVER_EPHEMERAL ++ u32LE sess ++ u16LE len ++ suf) 8 =
        .ok len := by
      rw [e8]
      exact readUInt16LE_at (u32LE SERVER_EPHEMERAL ++ u32LE sess) _ len 8
        (by simp [List.length_append, u32LE_length]) hlen
    have rsl : sliceZeroPad (u32LE SERVER_EPHEMERAL ++ u32LE sess ++ u16LE len ++ suf)
        10 len = suf ++ List.replicate (len - suf.length) 0 := by
      rw [e10]
      exact sliceZeroPad_short _ suf 10 len
        (by simp [List.length_append, u32LE_length, u16LE_length]) hsl
    simp only [serverEphemeral.unmarshall, r0, r4, r8, rsl]
    norm_num

/-- Claim C2, witness: the amended decoder contract evaluated on a
3-byte truncated buffer and on a concrete buffer with an overlong length
field. -/
theorem decoder_malformed_contract_witness :
    serverEphemeral.unmarshall [1, 2, 3] = .error .rangeError ∧
    serverEphemeral.unmarshall (u32LE SERVER_EPHEMERAL ++ u32LE 1 ++ u16LE 3 ++ [7]) =
      .ok ⟨1, [7, 0, 0]⟩ :=
  by
  refine ⟨decoder_malformed_contract.1 [1, 2, 3] (by norm_num), ?_⟩
  have h := decoder_malformed_contract.2.2.2.2.2 1 3 [7] (by norm_num) (by norm_num)
    (by norm_num)
  simpa using h

/-! ### Claim C4: SERVER_NEGOTIATE layout selection -/

/-- Claim C4, counterexample: on the version-1 buffer
`magic | 1 | "abcde" | NUL` the current decoder does read a
client_session field at offset 5 (the bytes of "abcd") and takes the
username from offset 9 (just "e"); it does not select the v1 layout. -/
theorem serverNegotiate_v1_buffer_misparsed :
    serverNegotiate.unmarshall (u32LE SERVER_NEGOTIATE ++ [1] ++ [97, 98, 99, 100, 101, 0]) =
      .ok ⟨1, 1684234849, [101]⟩ ∧
    (1684234849 : Nat) = 97 + 256 * 98 + 65536 * 99 + 16777216 * 100 ∧
    ([101] : Bytes) ≠ [97, 98, 99, 100, 101] :=
  ⟨rfl, by norm_num, by decide⟩

/-- Claim C4 (amended): the current SERVER_NEGOTIATE decoder validates
the version byte (1 or 2) but does not select a layout by it: for both
versions it reads client_session at offset 5 and the username at offset
9.  Only the legacy v1 codec kept in the repository decodes
`magic | 1 | username` with the username at offset 5 and no
client_session field. -/
theorem serverNegotiate_layout :
    (∀ (v cs : Nat) (un : Bytes), v = 1 ∨ v = 2 → cs ≤ 4294967295 →
      (∀ b ∈ un, b ≠ 0) →
      serverNegotiate.unmarshall (u32LE SERVER_NEGOTIATE ++ [v] ++ u32LE cs ++ un ++ [0]) =
        .ok ⟨v, cs, un⟩) ∧
    (∀ un : Bytes, (∀ b ∈ un, b ≠ 0) →
      v1serverNegotiate.unmarshall (u32LE SERVER_NEGOTIATE ++ [1] ++ un ++ [0]) =
        .ok ⟨un⟩) :=
  ⟨fun v cs un hv hcs hun => serverNegotiate_unmarshall_ok v cs un hv hcs hun,
   fun un hun => v1serverNegotiate_unmarshall_ok un hun⟩

/-- Claim C4, witness: both decoders evaluated on concrete buffers. -/
theorem serverNegotiate_layout_witness :
    serverNegotiate.unmarshall (u32LE SERVER_NEGOTIATE ++ [1] ++ u32LE 7 ++ [97] ++ [0]) =
      .ok ⟨1, 7, [97]⟩ ∧
    v1serverNegotiate.unmarshall (u32LE SERVER_NEGOTIATE ++ [1] ++ [97] ++ [0]) =
      .ok ⟨[97]⟩ :=
  ⟨serverNegotiate_layout.1 1 7 [97] (Or.inl rfl) (by norm_num) (by decide),
   serverNegotiate_layout.2 [97] (by decide)⟩

/-! ### Claim C10: the two 0xD003CAFF error packets -/

/-- Claim C10, counterexample: cross-acceptance fails on concrete
packets.  A user-error packet with an empty username marshals to 6 bytes
and `clientSessionError.unmarshall` rejects it (it needs 9), and a
9-byte client-session-error packet whose session id 0x01010101 has no
zero byte is rejected by `userError.unmarshall` (no NUL terminator). -/
theorem errorPackets_cross_accept_fails :
    (userError.marshall ⟨1, []⟩).bind clientSessionError.unmarshall =
      .error .rangeError ∧
    (clientSessionError.marshall ⟨1, 16843009⟩).bind userError.unmarshall =
      .error (.typeError "Null-terminator not found in buffer") :=
  ⟨rfl, rfl⟩

/-- Claim C10 (amended): ERROR_USER and ERROR_CLIENTSESSION do share the
magic 0xD003CAFF, so neither decoder can distinguish the two kinds by
magic; a marshalled user-error packet is accepted by
`clientSessionError.unmarshall` whenever its username is at least 3
bytes (so the buffer reaches 9 bytes), and a marshalled
client-session-error packet is accepted by `userError.unmarshall`
whenever some byte of the little-endian session id is zero. -/
theorem errorPackets_share_magic :
    ERROR_USER = ERROR_CLIENTSESSION ∧
    (∀ d : UserErrorData, d.error ≤ 255 → 3 ≤ d.username.length →
      ∃ cs, (userError.marshall d).bind clientSessionError.unmarshall =
        .ok ⟨d.error, cs⟩) ∧
    (∀ d : ClientSessionErrorData, d.error ≤ 255 → d.clientSession ≤ 4294967295 →
      0 ∈ u32LE d.clientSession →
      ∃ un, (clientSessionError.marshall d).bind userError.unmarshall =
        .ok ⟨d.error, un⟩) := by
  refine ⟨rfl, ?_, ?_⟩
  · intro d h1 h3
    rw [userError_marshall_eq d h1, exceptBind_ok]
    have e0 : u32LE ERROR_USER ++ [d.error] ++ d.username ++ [0] =
        ([] : Bytes) ++ u32LE ERROR_USER ++ ([d.error] ++ (d.username ++ [0])) := by
      simp
    have e4 : u32LE ERROR_USER ++ [d.error] ++ d.username ++ [0] =
        u32LE ERROR_USER ++ (d.error :: (d.username ++ [0])) := by
      simp
    have r0 : readUInt32LE (u32LE ERROR_USER ++ [d.error] ++ d.username ++ [0]) 0 =
        .ok ERROR_USER := by
      rw [e0]
      exact readUInt32LE_at [] _ _ 0 rfl (by norm_num [ERROR_USER])
    have r4 : readUInt8 (u32LE ERROR_USER ++ [d.error] ++ d.username ++ [0]) 4 =
        .ok d.error := by
      rw [e4]
      exact readUInt8_at (u32LE ERROR_USER) _ d.error 4 (u32LE_length _)
    have hlen : 5 + 4 ≤ (u32LE ERROR_USER ++ [d.error] ++ d.username ++ [0]).length := by
      simp [List.length_append, u32LE_length]
      omega
    obtain ⟨v, r5⟩ := readUInt32LE_isOk _ 5 hlen
    refine ⟨v, ?_⟩
    simp only [clientSessionError.unmarshall, r0, r4, r5]
    norm_num [ERROR_USER, ERROR_CLIENTSESSION]
  · intro d h1 h2 h0mem
    rw [clientSessionError_marshall_eq d h1 h2, exceptBind_ok]
    have e0 : u32LE ERROR_CLIENTSESSION ++ [d.error] ++ u32LE d.clientSession =
        ([] : Bytes) ++ u32LE ERROR_CLIENTSESSION ++ ([d.error] ++ u32LE d.clientSession) := by
      simp
    have e4 : u32LE ERROR_CLIENTSESSION ++ [d.error] ++ u32LE d.clientSession =
        u32LE ERROR_CLIENTSESSION ++ (d.error :: u32LE d.clientSession) := by
      simp
    have r0 : readUInt32LE (u32LE ERROR_CLIENTSESSION ++ [d.error] ++
        u32LE d.clientSession) 0 = .ok ERROR_CLIENTSESSION := by
      rw [e0]
      exact readUInt32LE_at [] _ _ 0 rfl (by norm_num [ERROR_CLIENTSESSION])
    have r4 : readUInt8 (u32LE ERROR_CLIENTSESSION ++ [d.error] ++
        u32LE d.clientSession) 4 = .ok d.error := by
      rw [e4]
      exact readUInt8_at (u32LE ERROR_CLIENTSESSION) _ d.error 4 (u32LE_length _)
    have hl5 : (u32LE ERROR_CLIENTSESSION ++ [d.error]).length = 5 := by
      simp [List.length_append, u32LE_length]
    have hdrop : (u32LE ERROR_CLIENTSESSION ++ [d.error] ++ u32LE d.clientSession).drop 5 =
        u32LE d.clientSession := by
      have h := List.drop_left (u32LE ERROR_CLIENTSESSION ++ [d.error])
        (u32LE d.clientSession)
      rw [hl5] at h
      exact h
    obtain ⟨z, hz⟩ := findZero_isSome (u32LE d.clientSession) 5 h0mem
    have rstr : readString (u32LE ERROR_CLIENTSESSION ++ [d.error] ++
        u32LE d.clientSession) 5 = .ok ((u32LE d.clientSession).take (z - 5)) := by
      simp only [readString, hdrop, hz]
    refine ⟨(u32LE d.clientSession).take (z - 5), ?_⟩
    simp only [userError.unmarshall, r0, r4, rstr]
    norm_num [ERROR_USER, ERROR_CLIENTSESSION]

/-- Claim C10, witness: both amended directions at concrete packets. -/
theorem errorPackets_share_magic_witness :
    (∃ cs, (userError.marshall ⟨1, [97, 98, 99]⟩).bind clientSessionError.unmarshall =
      .ok ⟨1, cs⟩) ∧
    (∃ un, (clientSessionError.marshall ⟨1, 7⟩).bind userError.unmarshall =
      .ok ⟨1, un⟩) :=
  ⟨errorPackets_share_magic.2.1 ⟨1, [97, 98, 99]⟩ (by norm_num) (by decide),
   errorPackets_share_magic.2.2 ⟨1, 7⟩ (by norm_num) (by norm_num) (by decide)⟩

/-! ### Claim C5: session id generation -/

/-- The drawn session id always fits in 32 bits. -/
theorem rand32_le (rng : Nat → Nat) (pos : Nat) : rand32 rng pos ≤ 4294967295 := by
  have h0 : rng pos % 256 < 256 := Nat.mod_lt _ (by norm_num)
  have h1 : rng (pos + 1) % 256 < 256 := Nat.mod_lt _ (by norm_num)
  have h2 : rng (pos + 2) % 256 < 256 := Nat.mod_lt _ (by norm_num)
  have h3 : rng (pos + 3) % 256 < 256 := Nat.mod_lt _ (by norm_num)
  rw [rand32]
  omega

/-- Claim C5, counterexample: `newSession` never rechecks the drawn id,
so with a random stream that repeats, two consecutive calls create two
active sessions carrying the same id 0 — the pairwise-distinctness the
claim asserts fails on this reachable store. -/
theorem newSession_collision_reachable :
    (newSession (fun _ => 0) 4 0 0 (newSession (fun _ => 0) 0 0 0 [])).map
      SessionRow.session = [0, 0] ∧
    ¬ List.Pairwise (fun a b : Nat => a ≠ b)
      ((newSession (fun _ => 0) 4 0 0 (newSession (fun _ => 0) 0 0 0 [])).map
        SessionRow.session) := by
  have hm : (newSession (fun _ => 0) 4 0 0 (newSession (fun _ => 0) 0 0 0 [])).map
      SessionRow.session = [0, 0] := rfl
  refine ⟨hm, ?_⟩
  rw [hm]
  intro h
  exact (List.pairwise_cons.mp h).1 0 (by simp) rfl

/-- Claim C5 (amended): `newSession` draws a 32-bit id from four random
bytes and creates the row unconditionally — there is no collision check
and no retry.  A run of n calls stores exactly the n raw draws as ids,
each below 2^32, so the active sessions have pairwise distinct ids only
when the raw draws happen to be pairwise distinct. -/
theorem newSession_ids (rng : Nat → Nat) (uids : Nat → Nat) (nows : Nat → Int) (n : Nat) :
    (runNewSessions rng uids nows n).map SessionRow.session =
      (List.range n).map (fun i => rand32 rng (4 * i)) ∧
    (∀ i, rand32 rng (4 * i) ≤ 4294967295) ∧
    (((List.range n).map (fun i => rand32 rng (4 * i))).Nodup →
      ((runNewSessions rng uids nows n).map SessionRow.session).Nodup) := by
  have hmap : (runNewSessions rng uids nows n).map SessionRow.session =
      (List.range n).map (fun i => rand32 rng (4 * i)) := by
    induction n with
    | zero => rfl
    | succ k ih =>
      rw [runNewSessions, newSession, List.map_append, ih, List.range_succ,
        List.map_append]
      rfl
  exact ⟨hmap, fun i => rand32_le rng (4 * i), fun h => hmap ▸ h⟩

/-- Claim C5, witness: with an injective byte stream the two draws differ
and the two stored ids are distinct. -/
theorem newSession_ids_witness :
    ((runNewSessions (fun i => i) (fun _ => 0) (fun _ => 0) 2).map
      SessionRow.session).Nodup :=
  (newSession_ids (fun i => i) (fun _ => 0) (fun _ => 0) 2).2.2 (by decide)

/-! ### Claim C6: setEphemeral is a one-shot compare-and-set -/

/-- A store in which no row is simultaneously on session id `s` with both
blobs unset makes `setEphemeral` fail and touch nothing. -/
theorem setEphemeral_fails (s : Nat) (e sec : Bytes) :
    ∀ store : List SessionRow,
      (∀ r ∈ store, ¬(r.session = s ∧ r.ephemeral = none ∧ r.secret = none)) →
      setEphemeral s e sec store = .error (.errorMsg "Session not found")
  | [], _ => rfl
  | r :: rest, h => by
    rw [setEphemeral, if_neg (h r (List.mem_cons_self r rest)),
      setEphemeral_fails s e sec rest (fun x hx => h x (List.mem_cons_of_mem r hx))]
    rfl

/-- On a store whose unique `s`-row is fresh, `setEphemeral` succeeds and
writes both blobs. -/
theorem setEphemeral_succeeds (s : Nat) (e sec : Bytes) (r0 : SessionRow)
    (hs : r0.session = s) (he : r0.ephemeral = none) (hsec : r0.secret = none) :
    ∀ pre post : List SessionRow, (∀ r ∈ pre, r.session ≠ s) →
      setEphemeral s e sec (pre ++ r0 :: post) =
        .ok (pre ++ SessionRow.mk r0.session (some e) (some sec) r0.userId r0.createdAt ::
          post)
  | [], post, _ => by
    rw [List.nil_append, setEphemeral, if_pos ⟨hs, he, hsec⟩, List.nil_append]
  | p :: pre, post, h => by
    have hp : ¬(p.session = s ∧ p.ephemeral = none ∧ p.secret = none) := by
      intro hc
      exact h p (List.mem_cons_self p pre) hc.1
    rw [List.cons_append, setEphemeral, if_neg hp,
      setEphemeral_succeeds s e sec r0 hs he hsec pre post
        (fun x hx => h x (List.mem_cons_of_mem p hx))]
    rfl

/-- Claim C6: `setEphemeral` is a compare-and-set.  On a store whose only
row with the given session id is fresh (ephemeral and secret unset), the
first call succeeds and writes both blobs, and every later call on the
updated store fails with "Session not found" while the model leaves the
store unchanged on failure — at most one `setEphemeral` per session ever
succeeds. -/
theorem setEphemeral_compare_and_set (pre post : List SessionRow) (r0 : SessionRow)
    (s : Nat) (e sec : Bytes) (hs : r0.session = s) (he : r0.ephemeral = none)
    (hsec : r0.secret = none) (hpre : ∀ r ∈ pre, r.session ≠ s)
    (hpost : ∀ r ∈ post, r.session ≠ s) :
    setEphemeral s e sec (pre ++ r0 :: post) =
      .ok (pre ++ SessionRow.mk r0.session (some e) (some sec) r0.userId r0.createdAt ::
        post) ∧
    (∀ e2 sec2, setEphemeral s e2 sec2
        (pre ++ SessionRow.mk r0.session (some e) (some sec) r0.userId r0.createdAt ::
          post) =
      .error (.errorMsg "Session not found")) := by
  refine ⟨setEphemeral_succeeds s e sec r0 hs he hsec pre post hpre, ?_⟩
  intro e2 sec2
  apply setEphemeral_fails
  intro r hr
  rcases List.mem_append.mp hr with h | h
  · intro hc
    exact hpre r h hc.1
  · rcases List.mem_cons.mp h with h | h
    · intro hc
      rw [h] at hc
      exact Option.noConfusion hc.2.1
    · intro hc
      exact hpost r h hc.1

/-- Claim C6, witness: the compare-and-set evaluated on a concrete
one-session store. -/
theorem setEphemeral_compare_and_set_witness :
    setEphemeral 5 [1] [2] [SessionRow.mk 5 none none (some 1) 0] =
      .ok [SessionRow.mk 5 (some [1]) (some [2]) (some 1) 0] ∧
    setEphemeral 5 [9] [9] [SessionRow.mk 5 (some [1]) (some [2]) (some 1) 0] =
      .error (.errorMsg "Session not found") :=
  ⟨(setEphemeral_compare_and_set [] [] (SessionRow.mk 5 none none (some 1) 0) 5 [1] [2]
      rfl rfl rfl (by simp) (by simp)).1,
   (setEphemeral_compare_and_set [] [] (SessionRow.mk 5 none none (some 1) 0) 5 [1] [2]
      rfl rfl rfl (by simp) (by simp)).2 [9] [9]⟩

/-! ### Claims C7 and C9: findSession -/

/-- Claim C7, counterexample: a session of age 0 (≤ ttl 30) whose
attached user is UNVERIFIED is not returned; findSession throws even
though now − created_at ≤ ttl, so "returns the stored session exactly
when the elapsed time is at most ttl" fails. -/
theorem findSession_fresh_unverified_fails :
    ((0 : Int) - 0 ≤ 30) ∧
    findSession [UserRow.mk 1 [] [] [] [] Access.UNVERIFIED false] 0 30 5
      [SessionRow.mk 5 none none (some 1) 0] =
      .error (.errorMsg "Session belongs to UNVERIFIED User") :=
  ⟨by norm_num, rfl⟩

/-- Claim C7 (amended): `findSession` returns the stored session exactly
when the row is found, its age `now − created_at` is at most the
timeout, and the session has an attached user whose access is not
UNVERIFIED.  In particular every session older than the timeout fails,
and the boundary `now − created_at = timeout` passes the expiry check. -/
theorem findSession_characterization (users : List UserRow) (now timeout : Int)
    (s : Nat) (store : List SessionRow) (sess : SessionRow) :
    findSession users now timeout s store = .ok sess ↔
      (store.find? (fun r => r.session == s) = some sess ∧
       now - sess.createdAt ≤ timeout ∧
       ∃ u, sess.userId.bind (lookupUser users) = some u ∧
         u.access ≠ Access.UNVERIFIED) := by
  cases hfind : store.find? (fun r => r.session == s) with
  | none =>
    simp only [findSession, hfind]
    constructor
    · intro h
      exact Except.noConfusion h
    · rintro ⟨hc, -⟩
      exact Option.noConfusion hc
  | some s0 =>
    simp only [findSession, hfind]
    by_cases ht : now - s0.createdAt > timeout
    · rw [if_pos ht]
      constructor
      · intro h
        exact Except.noConfusion h
      · rintro ⟨hc, hle, -⟩
        rw [Option.some.injEq] at hc
        subst hc
        omega
    · rw [if_neg ht]
      cases hu : s0.userId.bind (lookupUser users) with
      | none =>
        simp only []
        constructor
        · intro h
          exact Except.noConfusion h
        · rintro ⟨hc, -, u, hu2, -⟩
          rw [Option.some.injEq] at hc
          subst hc
          rw [hu] at hu2
          exact Option.noConfusion hu2
      | some u =>
        simp only []
        by_cases ha : u.access = Access.UNVERIFIED
        · rw [if_pos ha]
          constructor
          · intro h
            exact Except.noConfusion h
          · rintro ⟨hc, -, u2, hu2, hne⟩
            rw [Option.some.injEq] at hc
            subst hc
            rw [hu, Option.some.injEq] at hu2
            subst hu2
            exact (hne ha).elim
        · rw [if_neg ha]
          constructor
          · intro h
            rw [Except.ok.injEq] at h
            subst h
            exact ⟨rfl, by omega, u, hu, ha⟩
          · rintro ⟨hc, -, -⟩
            rw [Option.some.injEq] at hc
            subst hc
            rfl

/-- Claim C9: beyond missing and expired sessions, `findSession` also
fails when the stored session has no attached user, and when the
attached user's access level is UNVERIFIED — even for a fresh,
non-expired session. -/
theorem findSession_rejects_unverified (users : List UserRow) (now timeout : Int)
    (s : Nat) (store : List SessionRow) (sess : SessionRow)
    (hfind : store.find? (fun r => r.session == s) = some sess)
    (hfresh : now - sess.createdAt ≤ timeout) :
    (sess.userId.bind (lookupUser users) = none →
      findSession users now timeout s store =
        .error (.errorMsg "Session is not attached to User")) ∧
    (∀ u, sess.userId.bind (lookupUser users) = some u →
      u.access = Access.UNVERIFIED →
      findSession users now timeout s store =
        .error (.errorMsg "Session belongs to UNVERIFIED User")) := by
  constructor
  · intro hu
    simp only [findSession, hfind, hu]
    rw [if_neg (by omega)]
  · intro u hu ha
    simp only [findSession, hfind, hu]
    rw [if_neg (by omega), if_pos ha]

/-- Claim C9, witness: a fresh session attached to an UNVERIFIED user and
a fresh session with a dangling user reference, both rejected. -/
theorem findSession_rejects_unverified_witness :
    findSession [UserRow.mk 1 [] [] [] [] Access.UNVERIFIED false] 0 30 5
      [SessionRow.mk 5 none none (some 1) 0] =
      .error (.errorMsg "Session belongs to UNVERIFIED User") ∧
    findSession [] 0 30 6 [SessionRow.mk 6 none none none 0] =
      .error (.errorMsg "Session is not attached to User") :=
  ⟨(findSession_rejects_unverified [UserRow.mk 1 [] [] [] [] Access.UNVERIFIED false]
      0 30 5 [SessionRow.mk 5 none none (some 1) 0] (SessionRow.mk 5 none none (some 1) 0)
      rfl (by norm_num)).2 (UserRow.mk 1 [] [] [] [] Access.UNVERIFIED false) rfl rfl,
   (findSession_rejects_unverified [] 0 30 6 [SessionRow.mk 6 none none none 0]
      (SessionRow.mk 6 none none none 0) rfl (by norm_num)).1 rfl⟩

/-! ### Claim C8: salt and verifier are set jointly -/

theorem lowerByte_idem (b : Nat) : lowerByte (lowerByte b) = lowerByte b := by
  rw [lowerByte, lowerByte]
  split_ifs with h1 h2 <;> first | rfl | omega

theorem toLowerBytes_idem (bs : Bytes) : toLowerBytes (toLowerBytes bs) = toLowerBytes bs := by
  induction bs with
  | nil => rfl
  | cons b rest ih =>
    simp only [toLowerBytes, List.map_cons] at ih ⊢
    rw [lowerByte_idem]
    rw [ih]

theorem randomBytes_length (rng : Nat → Nat) (pos n : Nat) :
    (randomBytes rng pos n).length = n := by
  simp [randomBytes]

/-- The per-row fact claim C8 asserts: the salt is exactly 4 bytes and the
verifier is derived by `cv` from that same salt and the lowercased stored
username, for some password. -/
def SaltVerifierConsistent (cv : Bytes → Bytes → Bytes → Bytes) (u : UserRow) : Prop :=
  u.salt.length = 4 ∧ ∃ pw, u.verifier = cv u.salt (toLowerBytes u.username) pw

theorem applyCredOp_preserves (cv : Bytes → Bytes → Bytes → Bytes) (rng : Nat → Nat)
    (st : CredState) (op : CredOp)
    (h : ∀ u ∈ st.users, SaltVerifierConsistent cv u) :
    ∀ u ∈ (applyCredOp cv rng st op).users, SaltVerifierConsistent cv u := by
  cases op with
  | addUser username password email access =>
    intro u hu
    rw [applyCredOp] at hu
    rcases List.mem_append.mp hu with hm | hm
    · exact h u hm
    · rcases List.mem_cons.mp hm with hm | hm
      · subst hm
        refine ⟨randomBytes_length rng st.rngPos 4, password, ?_⟩
        rw [toLowerBytes_idem]
      · exact absurd hm (List.not_mem_nil u)
  | setPassword uid password =>
    intro u hu
    rw [applyCredOp] at hu
    rcases List.mem_map.mp hu with ⟨u0, hu0, heq⟩
    by_cases hid : u0.id = uid
    · rw [if_pos hid] at heq
      subst heq
      exact ⟨randomBytes_length rng st.rngPos 4, password, rfl⟩
    · rw [if_neg hid] at heq
      subst heq
      exact h u0 hu0

theorem credOps_preserve (cv : Bytes → Bytes → Bytes → Bytes) (rng : Nat → Nat) :
    ∀ (ops : List CredOp) (st : CredState),
      (∀ u ∈ st.users, SaltVerifierConsistent cv u) →
      ∀ u ∈ (ops.foldl (applyCredOp cv rng) st).users, SaltVerifierConsistent cv u
  | [], _, h => h
  | op :: ops, st, h =>
    credOps_preserve cv rng ops (applyCredOp cv rng st op)
      (applyCredOp_preserves cv rng st op h)

/-- Claim C8: under any sequence of the repository's credential-store
writes (`addUser`, `setPassword`), every user row carries a salt of
exactly 4 bytes together with a verifier computed by the SRP verifier
function from that very salt and the lowercased stored username — the
two fields are only ever written jointly and stay mutually consistent. -/
theorem salt_verifier_jointly_set (cv : Bytes → Bytes → Bytes → Bytes) (rng : Nat → Nat)
    (ops : List CredOp) :
    ∀ u ∈ (runCredOps cv rng ops).users,
      u.salt.length = 4 ∧ ∃ pw, u.verifier = cv u.salt (toLowerBytes u.username) pw := by
  intro u hu
  have hinit : ∀ x ∈ initCredState.users, SaltVerifierConsistent cv x := by
    intro x hx
    exact absurd hx (List.not_mem_nil x)
  exact credOps_preserve cv rng ops initCredState hinit u hu

/-- Claim C8, witness: the invariant evaluated after one concrete
`addUser` followed by one concrete `setPassword`. -/
theorem salt_verifier_jointly_set_witness :
    (UserRow.mk 0 [97] [] ([0, 1, 2, 3] ++ [97] ++ [112]) [0, 1, 2, 3] Access.USER
        true).salt.length = 4 ∧
    ∃ pw, (UserRow.mk 0 [97] [] ([0, 1, 2, 3] ++ [97] ++ [112]) [0, 1, 2, 3] Access.USER
        true).verifier =
      (fun s un p => s ++ un ++ p) (UserRow.mk 0 [97] [] ([0, 1, 2, 3] ++ [97] ++ [112])
        [0, 1, 2, 3] Access.USER true).salt
        (toLowerBytes (UserRow.mk 0 [97] [] ([0, 1, 2, 3] ++ [97] ++ [112]) [0, 1, 2, 3]
          Access.USER true).username) pw :=
  salt_verifier_jointly_set (fun s un p => s ++ un ++ p) (fun i => i)
    [CredOp.addUser [65] [112] [] Access.USER]
    (UserRow.mk 0 [97] [] ([0, 1, 2, 3] ++ [97] ++ [112]) [0, 1, 2, 3] Access.USER true)
    (by decide)
